import Mathlib

/-!
Shallow embedding of the BIP-0137 signature-verification core
(package `verify` of cryptopunkscc/bip-0137) and proofs about it.

Modelling conventions:
* A Go `string` and a Go `[]byte` are both modelled as `List Nat` whose
  elements are byte values (< 256); Go strings are byte sequences.
* External capabilities (SHA-256, ECDSA verification over secp256k1,
  hash160, base58check address encoding, and the external
  `verify-signed-message` library) are abstracted as oracle fields of a
  `Caps` structure: the repository consumes them, it does not define them.
* Go's `fmt.Errorf("...: %w", err)` wrapping adds context but preserves
  the wrapped error (per `errors.Is`); errors are modelled at the kind
  level, so wrapping is the identity on the modelled error value.
* Public keys and network parameter objects are opaque handles, modelled
  as `Nat`.
-/

/-- A Go string / byte slice: a list of byte values. -/
abbrev GoStr := List Nat

/-- Opaque handle for a parsed secp256k1 public key (`*btcec.PublicKey`). -/
abbrev PubKey := Nat

/-- Opaque handle for a `*chaincfg.Params` network-parameter object. -/
abbrev ChainParams := Nat

/-- The mainnet parameter object `chaincfg.MainNetParams`. -/
def mainNetParams : ChainParams := 0

/-- Error kinds produced by the verification core (package `verify`).
`externalErr` stands for an error surfaced by an external capability. -/
inductive VerifyError where
  | invalidEncoding
  | malformedSignature
  | invalidHeaderByte (h : Nat)
  | derParseError
  | emptyAddress
  | emptyMessage
  | emptySignature
  | timeout
  | addressDerivationError
  | externalErr (code : Nat)
deriving DecidableEq, Repr

/-- External capabilities consumed by the core (see spec section 6):
hashing, curve verification, serialization, address encoding, and the
external address-based verifier library. -/
structure Caps where
  sha256 : List Nat → List Nat
  ecVerify : Nat → Nat → List Nat → PubKey → Bool
  hash160 : List Nat → List Nat
  serializeCompressed : PubKey → List Nat
  encodeAddress : List Nat → ChainParams → Option GoStr
  chainVerify : GoStr → GoStr → GoStr → ChainParams → Except VerifyError Bool
  plainVerify : GoStr → GoStr → GoStr → Except VerifyError Bool

/-! ## Varint (CompactSize) encoder and message canonicalizer
Embeds `appendCompactSize` and `formatBitcoinMessageForVerification`
from the `verify` package. Go's `byte(n)` truncation is `n % 256`. -/

/-- `appendCompactSize` from the source: appends Bitcoin's CompactSize
encoding of `n` to `b`. -/
def appendCompactSize (b : List Nat) (n : Nat) : List Nat :=
  if n < 253 then b ++ [n % 256]
  else if n ≤ 0xffff then (b ++ [253]) ++ [n % 256, (n >>> 8) % 256]
  else if n ≤ 0xffffffff then
    (b ++ [254]) ++ [n % 256, (n >>> 8) % 256, (n >>> 16) % 256, (n >>> 24) % 256]
  else
    (b ++ [255]) ++ [n % 256, (n >>> 8) % 256, (n >>> 16) % 256, (n >>> 24) % 256,
      (n >>> 32) % 256, (n >>> 40) % 256, (n >>> 48) % 256, (n >>> 56) % 256]

/-- The prefix string literal `"Bitcoin Signed Message:\n"` of
`formatBitcoinMessageForVerification`, as its byte sequence. -/
def bitcoinPrefix : GoStr := "Bitcoin Signed Message:\n".toList.map Char.toNat

/-- `formatBitcoinMessageForVerification` from the source: varint-prefixed
prefix followed by the varint-prefixed message bytes. -/
def formatBitcoinMessageForVerification (message : GoStr) : List Nat :=
  let result : List Nat := []
  let result := appendCompactSize result bitcoinPrefix.length ++ bitcoinPrefix
  let result := appendCompactSize result message.length ++ message
  result

/-- Written from the spec claim's words, for the refinement proof of C5:
Bitcoin's CompactSize encoding rule (n<253 one byte; n ≤ 0xFFFF marker 253
plus 2 little-endian bytes; n ≤ 0xFFFFFFFF marker 254 plus 4 little-endian
bytes; otherwise marker 255 plus 8 little-endian bytes). -/
def specCompactSize (n : Nat) : List Nat :=
  if n < 253 then [n]
  else if n ≤ 0xFFFF then [253, n % 256, n / 256 % 256]
  else if n ≤ 0xFFFFFFFF then
    [254, n % 256, n / 256 % 256, n / 256 ^ 2 % 256, n / 256 ^ 3 % 256]
  else
    [255, n % 256, n / 256 % 256, n / 256 ^ 2 % 256, n / 256 ^ 3 % 256,
      n / 256 ^ 4 % 256, n / 256 ^ 5 % 256, n / 256 ^ 6 % 256, n / 256 ^ 7 % 256]

/-- Written from the spec claim's words: the 24-byte prefix
"Bitcoin Signed Message:\n" as explicit byte values. -/
def specBitcoinPrefix : List Nat :=
  [66, 105, 116, 99, 111, 105, 110, 32, 83, 105, 103, 110, 101, 100, 32,
   77, 101, 115, 115, 97, 103, 101, 58, 10]

/-- Written from the spec claim's words: canonical message bytes =
varint(len(prefix)) ∥ prefix ∥ varint(len(message)) ∥ message. -/
def specCanonicalMessageBytes (message : List Nat) : List Nat :=
  specCompactSize specBitcoinPrefix.length ++ specBitcoinPrefix ++
    specCompactSize message.length ++ message

theorem appendCompactSize_eq_spec (b : List Nat) (n : Nat) :
    appendCompactSize b n = b ++ specCompactSize n := by
  unfold appendCompactSize specCompactSize
  have h8 : n >>> 8 = n / 256 := by
    rw [Nat.shiftRight_eq_div_pow]
  have h16 : n >>> 16 = n / 256 ^ 2 := by
    rw [Nat.shiftRight_eq_div_pow]; norm_num
  have h24 : n >>> 24 = n / 256 ^ 3 := by
    rw [Nat.shiftRight_eq_div_pow]; norm_num
  have h32 : n >>> 32 = n / 256 ^ 4 := by
    rw [Nat.shiftRight_eq_div_pow]; norm_num
  have h40 : n >>> 40 = n / 256 ^ 5 := by
    rw [Nat.shiftRight_eq_div_pow]; norm_num
  have h48 : n >>> 48 = n / 256 ^ 6 := by
    rw [Nat.shiftRight_eq_div_pow]; norm_num
  have h56 : n >>> 56 = n / 256 ^ 7 := by
    rw [Nat.shiftRight_eq_div_pow]; norm_num
  split
  · next h => simp [Nat.mod_eq_of_lt (show n < 256 by omega)]
  · split
    · simp [h8]
    · split
      · simp [h8, h16, h24]
      · simp [h8, h16, h24, h32, h40, h48, h56]

/-! ## Base64 decoding (model of Go's `base64.StdEncoding.DecodeString`)
Standard alphabet, padding required, input consumed in 4-character
quanta; carriage returns and newlines are skipped; a padded quantum must
be the last one; default (non-strict) mode does not check trailing bits. -/

/-- Value of one standard-alphabet base64 character, if any. -/
def b64Val (c : Nat) : Option Nat :=
  if 65 ≤ c ∧ c ≤ 90 then some (c - 65)
  else if 97 ≤ c ∧ c ≤ 122 then some (c - 97 + 26)
  else if 48 ≤ c ∧ c ≤ 57 then some (c - 48 + 52)
  else if c = 43 then some 62
  else if c = 47 then some 63
  else none

/-- Decode a newline-free character stream in 4-character quanta. -/
def decodeB64Chunks : List Nat → Option (List Nat)
  | [] => some []
  | c1 :: c2 :: c3 :: c4 :: rest =>
    match b64Val c1, b64Val c2 with
    | some v1, some v2 =>
      if c3 = 61 then
        if c4 = 61 ∧ rest = [] then some [v1 * 4 + v2 / 16]
        else none
      else
        match b64Val c3 with
        | some v3 =>
          if c4 = 61 then
            if rest = [] then some [v1 * 4 + v2 / 16, v2 % 16 * 16 + v3 / 4]
            else none
          else
            match b64Val c4 with
            | some v4 =>
              match decodeB64Chunks rest with
              | some t =>
                some ([v1 * 4 + v2 / 16, v2 % 16 * 16 + v3 / 4, v3 % 4 * 64 + v4] ++ t)
              | none => none
            | none => none
        | none => none
    | _, _ => none
  | _ => none

/-- Model of `base64.StdEncoding.DecodeString`: skip CR/LF, then decode
in quanta; `none` models a `CorruptInputError`. -/
def decodeBase64 (s : GoStr) : Option (List Nat) :=
  decodeB64Chunks (s.filter fun c => !(c == 10) && !(c == 13))

/-! ## Signature envelope decoding (`verifySignatureDirectly`, first part) -/

/-- The decoded BIP-137 signature envelope (spec section 3). -/
structure SignatureEnvelope where
  headerByte : Nat
  recoveryID : Nat
  isCompressed : Bool
  r : List Nat
  s : List Nat
deriving DecidableEq, Repr

/-- Envelope decoding on the base64-decoded bytes, following the inline
logic of `verifySignatureDirectly`: length check, then header-byte range
check; `recoveryID = int(headerByte-27) % 4` with Go's wrapping byte
subtraction; `isCompressed = headerByte >= 31`; r = bytes[1:33],
s = bytes[33:65]. -/
def decodeEnvelopeBytes (sigBytes : List Nat) : Except VerifyError SignatureEnvelope :=
  if sigBytes.length < 65 then .error .malformedSignature
  else
    let h := sigBytes.headD 0
    let recId := (h + 256 - 27) % 256 % 4
    let compressed : Bool := decide (31 ≤ h)
    if (h < 27 ∨ 34 < h) ∧ (h < 35 ∨ 42 < h) then .error (.invalidHeaderByte h)
    else .ok ⟨h, recId, compressed, (sigBytes.drop 1).take 32, (sigBytes.drop 33).take 32⟩

/-! ## DER signature construction (`verifySignatureDirectly`, middle part) -/

/-- The leading-zero stripping loops of `verifySignatureDirectly`. -/
def stripZeros : List Nat → List Nat
  | [] => []
  | x :: xs => if x = 0 then stripZeros xs else x :: xs

/-- The sign-restoring step: prepend 0x00 when the slice is nonempty and
its first byte has the high bit set (`rBytes[0]&0x80 != 0`). -/
def ensurePositive (b : List Nat) : List Nat :=
  match b with
  | [] => []
  | x :: xs => if x &&& 128 ≠ 0 then 0 :: x :: xs else x :: xs

/-- The DER construction of `verifySignatureDirectly`:
`0x30 <len> 0x02 <rLen> <r> 0x02 <sLen> <s>` after stripping leading
zeros and restoring sign bits; Go's `byte(·)` casts are `% 256`. -/
def buildDER (rIn sIn : List Nat) : List Nat :=
  let rB := ensurePositive (stripZeros rIn)
  let sB := ensurePositive (stripZeros sIn)
  let totalLen := 2 + rB.length + 2 + sB.length
  [0x30, totalLen % 256, 0x02, rB.length % 256] ++ rB ++ [0x02, sB.length % 256] ++ sB

/-- Unsigned big-endian value of a byte sequence. -/
def beNat : List Nat → Nat
  | [] => 0
  | x :: xs => x * 256 ^ xs.length + beNat xs

/-- ASN.1 DER INTEGER parser (model of the strict-DER `ParseDERSignature`
integer step): tag 0x02, one short-form length byte, at least one content
byte, non-negative (leading bit clear), minimal (a leading 0x00 only
before a byte with the high bit set); returns the unsigned value and the
remaining bytes. -/
def parseDerInt (d : List Nat) : Option (Nat × List Nat) :=
  match d with
  | 2 :: len :: rest =>
    if len = 0 ∨ 128 ≤ len ∨ rest.length < len then none
    else
      let content := rest.take len
      if 128 ≤ content.headD 0 then none
      else if content.headD 0 = 0 ∧ 1 < len ∧ content.tail.headD 0 < 128 then none
      else some (beNat content, rest.drop len)
  | _ => none

/-- ASN.1 DER ECDSA signature parser: `0x30 <len> <INTEGER r> <INTEGER s>`
with an exact-length check and no trailing bytes. -/
def parseDerSig (d : List Nat) : Option (Nat × Nat) :=
  match d with
  | 48 :: len :: rest =>
    if 128 ≤ len ∨ rest.length ≠ len then none
    else
      match parseDerInt rest with
      | none => none
      | some (r, rest2) =>
        match parseDerInt rest2 with
        | none => none
        | some (s, rest3) => if rest3 = [] then some (r, s) else none
  | _ => none

/-! ## The verification operations -/

/-- `verifySignatureDirectly`: base64-decode, envelope-decode, canonical
message double-SHA256, DER re-encoding, external DER parse and ECDSA
verification. -/
def verifySignatureDirectly (caps : Caps) (pubKey : PubKey)
    (message signatureBase64 : GoStr) : Except VerifyError Bool :=
  match decodeBase64 signatureBase64 with
  | none => .error .invalidEncoding
  | some sigBytes =>
    match decodeEnvelopeBytes sigBytes with
    | .error e => .error e
    | .ok env =>
      let messageHash := caps.sha256 (caps.sha256 (formatBitcoinMessageForVerification message))
      match parseDerSig (buildDER env.r env.s) with
      | none => .error .derParseError
      | some rs => .ok (caps.ecVerify rs.1 rs.2 messageHash pubKey)

/-- `VerifyBip137SignatureWithParams` from `verify/signature.go`: empty
input checks, then delegation to the external `verifier.VerifyWithChain`
capability (whose error is wrapped with context, kind preserved). -/
def VerifyBip137SignatureWithParams (caps : Caps)
    (address message signatureBase64 : GoStr) (params : ChainParams) :
    Except VerifyError Bool :=
  if address = [] then .error .emptyAddress
  else if message = [] then .error .emptyMessage
  else if signatureBase64 = [] then .error .emptySignature
  else
    match caps.chainVerify address message signatureBase64 params with
    | .error e => .error e
    | .ok valid => .ok valid

/-- `VerifyBip137Signature`: the mainnet convenience wrapper. -/
def VerifyBip137Signature (caps : Caps) (address message signatureBase64 : GoStr) :
    Except VerifyError Bool :=
  VerifyBip137SignatureWithParams caps address message signatureBase64 mainNetParams

/-- `deriveAddressFromPubKey`: hash160 of the compressed serialization,
encoded as a P2PKH address for the given network parameters. -/
def deriveAddressFromPubKey (caps : Caps) (pubKey : PubKey) (params : ChainParams) :
    Except VerifyError GoStr :=
  match caps.encodeAddress (caps.hash160 (caps.serializeCompressed pubKey)) params with
  | none => .error .addressDerivationError
  | some addr => .ok addr

/-- `verifyWithDerivedAddress`: decode the signature (min length 1),
derive a mainnet address from the public key, and retry address-based
verification against it. -/
def verifyWithDerivedAddress (caps : Caps) (pubKey : PubKey)
    (message signatureBase64 : GoStr) : Except VerifyError Bool :=
  match decodeBase64 signatureBase64 with
  | none => .error .invalidEncoding
  | some sigBytes =>
    if sigBytes.length < 1 then .error .malformedSignature
    else
      match deriveAddressFromPubKey caps pubKey mainNetParams with
      | .error e => .error e
      | .ok derivedAddress => VerifyBip137Signature caps derivedAddress message signatureBase64

/-- `VerifyWithPubKey`: the direct path, falling back to the derived
address path only when the direct path returns an error. -/
def VerifyWithPubKey (caps : Caps) (pubKey : PubKey)
    (message signatureBase64 : GoStr) : Except VerifyError Bool :=
  match verifySignatureDirectly caps pubKey message signatureBase64 with
  | .ok valid => .ok valid
  | .error _ => verifyWithDerivedAddress caps pubKey message signatureBase64

/-- `SignedMessage` from `verify/signature.go`. -/
structure SignedMessage where
  address : GoStr
  message : GoStr
  signature : GoStr

/-- `VerifyBip137SignatureWithContext`: races the verification goroutine
against the context deadline. The select outcome is modelled by
`deadlineFirst : Bool` — true when `ctx.Done()` fires before the result
channel delivers. A non-timeout external error is wrapped with context
(kind preserved). -/
def VerifyBip137SignatureWithContext (caps : Caps) (deadlineFirst : Bool)
    (msg : SignedMessage) : Except VerifyError Bool :=
  if deadlineFirst then .error .timeout
  else
    match caps.plainVerify msg.address msg.message msg.signature with
    | .error e => .error e
    | .ok valid => .ok valid

/-! ## Helper lemmas about the DER construction -/

set_option maxRecDepth 4096 in
theorem land128_iff (x : Nat) (hx : x < 256) : x &&& 128 ≠ 0 ↔ 128 ≤ x := by
  revert hx
  revert x
  decide

theorem beNat_stripZeros (l : List Nat) : beNat (stripZeros l) = beNat l := by
  induction l with
  | nil => rfl
  | cons x xs ih =>
    by_cases hx : x = 0
    · subst hx
      simp [stripZeros, beNat, ih]
    · simp [stripZeros, hx]

theorem stripZeros_eq_nil_beNat (l : List Nat) (h : stripZeros l = []) : beNat l = 0 := by
  induction l with
  | nil => rfl
  | cons x xs ih =>
    by_cases hx : x = 0
    · subst hx
      simp only [stripZeros, if_pos rfl] at h
      simp [beNat, ih h]
    · simp [stripZeros, hx] at h

theorem stripZeros_subset (l : List Nat) : ∀ x ∈ stripZeros l, x ∈ l := by
  induction l with
  | nil => simp [stripZeros]
  | cons y ys ih =>
    by_cases hy : y = 0
    · subst hy
      simp only [stripZeros, if_pos rfl]
      intro x hx
      exact List.mem_cons_of_mem 0 (ih x hx)
    · simp [stripZeros, hy]

theorem stripZeros_head_ne (l : List Nat) (x : Nat) (xs : List Nat)
    (h : stripZeros l = x :: xs) : x ≠ 0 := by
  induction l with
  | nil => simp [stripZeros] at h
  | cons y ys ih =>
    by_cases hy : y = 0
    · subst hy
      simp only [stripZeros, if_pos rfl] at h
      exact ih h
    · simp only [stripZeros, if_neg hy] at h
      injection h with h1 h2
      exact h1 ▸ hy

theorem stripZeros_length_le (l : List Nat) : (stripZeros l).length ≤ l.length := by
  induction l with
  | nil => simp [stripZeros]
  | cons y ys ih =>
    by_cases hy : y = 0
    · subst hy
      simp only [stripZeros, if_pos rfl]
      exact le_trans ih (by simp)
    · simp [stripZeros, hy]

theorem ensurePositive_length_le (b : List Nat) :
    (ensurePositive b).length ≤ b.length + 1 := by
  cases b with
  | nil => simp [ensurePositive]
  | cons x xs =>
    by_cases hx : x &&& 128 ≠ 0
    · simp [ensurePositive, hx]
    · simp [ensurePositive, hx]

/-- Parsing one DER INTEGER produced by the builder's strip/sign steps:
for byte input `v` with nonzero value, the emitted
`0x02 <len> <content>` field parses back to `beNat v` and leaves `tail`. -/
theorem parseDerInt_build (v tail : List Nat)
    (hb : ∀ x ∈ v, x < 256) (hnz : beNat v ≠ 0)
    (hlen : (ensurePositive (stripZeros v)).length < 128) :
    parseDerInt (2 :: (ensurePositive (stripZeros v)).length ::
      (ensurePositive (stripZeros v) ++ tail)) = some (beNat v, tail) := by
  obtain ⟨h, t, hst⟩ : ∃ h t, stripZeros v = h :: t := by
    cases hsz : stripZeros v with
    | nil => exact absurd (stripZeros_eq_nil_beNat v hsz) hnz
    | cons h t => exact ⟨h, t, rfl⟩
  have hne : h ≠ 0 := stripZeros_head_ne v h t hst
  have hmem : h ∈ v := stripZeros_subset v h (hst ▸ List.mem_cons_self h t)
  have hb256 : h < 256 := hb h hmem
  have hval : beNat (h :: t) = beNat v := hst ▸ beNat_stripZeros v
  rw [hst] at hlen ⊢
  by_cases hhi : h &&& 128 ≠ 0
  · have h128 : 128 ≤ h := (land128_iff h hb256).1 hhi
    simp only [ensurePositive, if_pos hhi] at hlen ⊢
    have htake : List.take (0 :: h :: t).length ((0 :: h :: t) ++ tail) = 0 :: h :: t :=
      List.take_left _ _
    have hdrop : List.drop (0 :: h :: t).length ((0 :: h :: t) ++ tail) = tail :=
      List.drop_left _ _
    simp only [parseDerInt, htake, hdrop]
    split
    · next hc =>
      exfalso
      simp only [List.length_cons, List.length_append] at hc hlen
      omega
    · split
      · next hc =>
        exfalso
        simp only [List.headD_cons] at hc
        omega
      · split
        · next hc =>
          exfalso
          simp only [List.headD_cons, List.tail_cons] at hc
          omega
        · have : beNat (0 :: h :: t) = beNat (h :: t) := by simp [beNat]
          rw [this, hval]
  · have h128 : h < 128 := by
      rcases Nat.lt_or_ge h 128 with hc | hc
      · exact hc
      · exact absurd ((land128_iff h hb256).2 hc) hhi
    simp only [ensurePositive, if_neg hhi] at hlen ⊢
    have htake : List.take (h :: t).length ((h :: t) ++ tail) = h :: t :=
      List.take_left _ _
    have hdrop : List.drop (h :: t).length ((h :: t) ++ tail) = tail :=
      List.drop_left _ _
    simp only [parseDerInt, htake, hdrop]
    split
    · next hc =>
      exfalso
      simp only [List.length_cons, List.length_append] at hc hlen
      omega
    · split
      · next hc =>
        exfalso
        simp only [List.headD_cons] at hc
        omega
      · split
        · next hc =>
          exfalso
          simp only [List.headD_cons, List.tail_cons] at hc
          exact hne hc.1
        · rw [hval]

/-- C6 (amended): for every pair of 32-byte r and s byte sequences whose
unsigned big-endian values are nonzero (including ones with leading zero
bytes and ones whose first significant byte has the high bit set),
building the DER signature and parsing it back per ASN.1 DER INTEGER
rules reconstructs the original r and s values exactly. The all-zero
case is excluded: there the builder emits a zero-length INTEGER and the
parse fails (see the counterexample). -/
theorem buildDER_parse_general (r s : List Nat)
    (hr : r.length = 32) (hs : s.length = 32)
    (hbr : ∀ x ∈ r, x < 256) (hbs : ∀ x ∈ s, x < 256)
    (hrnz : beNat r ≠ 0) (hsnz : beNat s ≠ 0) :
    parseDerSig (buildDER r s) = some (beNat r, beNat s) := by
  have hrl : (ensurePositive (stripZeros r)).length ≤ 33 := by
    have h1 := stripZeros_length_le r
    have h2 := ensurePositive_length_le (stripZeros r)
    omega
  have hsl : (ensurePositive (stripZeros s)).length ≤ 33 := by
    have h1 := stripZeros_length_le s
    have h2 := ensurePositive_length_le (stripZeros s)
    omega
  have hmod2 : (ensurePositive (stripZeros r)).length % 256 =
      (ensurePositive (stripZeros r)).length := Nat.mod_eq_of_lt (by omega)
  have hmod3 : (ensurePositive (stripZeros s)).length % 256 =
      (ensurePositive (stripZeros s)).length := Nat.mod_eq_of_lt (by omega)
  have hmod1 : (2 + (ensurePositive (stripZeros r)).length + 2 +
      (ensurePositive (stripZeros s)).length) % 256 =
      2 + (ensurePositive (stripZeros r)).length + 2 +
        (ensurePositive (stripZeros s)).length := Nat.mod_eq_of_lt (by omega)
  have hR := parseDerInt_build r
    (2 :: (ensurePositive (stripZeros s)).length :: ensurePositive (stripZeros s))
    hbr hrnz (by omega)
  have hS0 := parseDerInt_build s [] hbs hsnz (by omega)
  rw [List.append_nil] at hS0
  simp only [buildDER, hmod1, hmod2, hmod3, List.append_assoc, List.cons_append,
    List.nil_append]
  simp only [parseDerSig]
  split
  · next hc =>
    exfalso
    simp only [List.length_cons, List.length_append] at hc
    omega
  · rw [hR]
    simp [hS0]

deriving instance DecidableEq for Except

/-! ## Concrete instantiations used by witnesses and counterexamples -/

/-- An oracle set whose external capabilities always succeed (ECDSA
verification and the external verifier return true). -/
def capsTrue : Caps where
  sha256 := id
  ecVerify := fun _ _ _ _ => true
  hash160 := id
  serializeCompressed := fun _ => [2, 5]
  encodeAddress := fun _ _ => some [49]
  chainVerify := fun _ _ _ _ => .ok true
  plainVerify := fun _ _ _ => .ok true

/-- An oracle set whose external verification capabilities return a
conclusive false. -/
def capsFalse : Caps where
  sha256 := id
  ecVerify := fun _ _ _ _ => false
  hash160 := id
  serializeCompressed := fun _ => [2, 5]
  encodeAddress := fun _ _ => some [49]
  chainVerify := fun _ _ _ _ => .ok false
  plainVerify := fun _ _ _ => .ok false

/-- 64 bytes of r ∥ s with r = s = 0…01. -/
def sigTail65 : List Nat := (List.replicate 31 0 ++ [1]) ++ (List.replicate 31 0 ++ [1])

/-- A 65-byte signature envelope with header byte 27. -/
def sigBytes27 : List Nat := 27 :: sigTail65

/-- A 65-byte signature envelope with header byte 28. -/
def sigBytes28 : List Nat := 28 :: sigTail65

/-- Base64 of `sigBytes27`. -/
def sigB64H27 : GoStr :=
  "GwAAAAAAAAAAAAAAAAAAAAAAAAAAAAAAAAAAAAAAAAABAAAAAAAAAAAAAAAAAAAAAAAAAAAAAAAAAAAAAAAAAAE=".toList.map Char.toNat

/-- Base64 of `sigBytes28`. -/
def sigB64H28 : GoStr :=
  "HAAAAAAAAAAAAAAAAAAAAAAAAAAAAAAAAAAAAAAAAAABAAAAAAAAAAAAAAAAAAAAAAAAAAAAAAAAAAAAAAAAAAE=".toList.map Char.toNat

/-- A string that is not valid base64. -/
def badB64 : GoStr := [33]

/-- A short nonempty test message. -/
def msgT : GoStr := [104, 105]

/-- A concrete `SignedMessage`. -/
def smT : SignedMessage := ⟨[49], msgT, sigB64H27⟩

/-! ## Claim theorems -/

/-- C5: for every message (including the empty one), canonicalization
returns exactly varint(len(prefix)) ∥ prefix ∥ varint(len(message)) ∥
message with the 24-byte prefix "Bitcoin Signed Message:\n" and
Bitcoin's CompactSize varint; as a Lean function it is total and
deterministic. -/
theorem canonical_message_bytes_spec (message : GoStr) :
    formatBitcoinMessageForVerification message = specCanonicalMessageBytes message ∧
    bitcoinPrefix = specBitcoinPrefix ∧ specBitcoinPrefix.length = 24 := by
  have hpre : bitcoinPrefix = specBitcoinPrefix := by decide
  refine ⟨?_, hpre, by decide⟩
  simp only [formatBitcoinMessageForVerification, specCanonicalMessageBytes,
    appendCompactSize_eq_spec, hpre, List.nil_append, List.append_assoc]

/-- C2: the DER builder, applied to an all-zero r and s, emits
`0x02 0x00` — a zero-length INTEGER field — rather than the single
`0x00` content byte the specification requires. -/
theorem derBuilder_zero_emits_zero_length_integer :
    buildDER (List.replicate 32 0) (List.replicate 32 0) = [48, 4, 2, 0, 2, 0] := by
  decide

/-- C6 counterexample: for the 32-byte all-zero r, building the DER
signature and parsing it back per ASN.1 DER INTEGER rules does not
reconstruct (r, s): the parse fails on the zero-length INTEGER. -/
theorem der_roundTrip_zero_r_counterexample :
    parseDerSig (buildDER (List.replicate 32 0) (List.replicate 31 0 ++ [1])) = none := by
  decide

/-- Witness for C6: a concrete r with a leading-zero tail value 1 and a
concrete s whose significant byte has the high bit set round-trip. -/
theorem buildDER_parse_general_witness :
    beNat (List.replicate 31 0 ++ [1]) ≠ 0 ∧
    beNat (List.replicate 31 0 ++ [128]) ≠ 0 ∧
    parseDerSig (buildDER (List.replicate 31 0 ++ [1]) (List.replicate 31 0 ++ [128])) =
      some (beNat (List.replicate 31 0 ++ [1]), beNat (List.replicate 31 0 ++ [128])) :=
  ⟨by decide, by decide,
    buildDER_parse_general (List.replicate 31 0 ++ [1]) (List.replicate 31 0 ++ [128])
      (by decide) (by decide) (by decide) (by decide) (by decide) (by decide)⟩

/-- C1: for every base64-decoded signature of at least 65 bytes, the
envelope decoder classifies header byte h as: h in 27-30 gives recovery
id (h-27) mod 4 in 0-3 with isCompressed = false; h in 31-34 gives
recovery id (h-27) mod 4 in 0-3 with isCompressed = true; every h
outside [27,42] fails with invalidHeaderByte instead of an envelope. -/
theorem header_byte_classification (sigBytes : List Nat) (h : Nat)
    (hlen : 65 ≤ sigBytes.length) (hh : h = sigBytes.headD 0) :
    ((27 ≤ h ∧ h ≤ 30) → ∃ env, decodeEnvelopeBytes sigBytes = Except.ok env ∧
        env.recoveryID = (h - 27) % 4 ∧ env.recoveryID ≤ 3 ∧ env.isCompressed = false) ∧
    ((31 ≤ h ∧ h ≤ 34) → ∃ env, decodeEnvelopeBytes sigBytes = Except.ok env ∧
        env.recoveryID = (h - 27) % 4 ∧ env.recoveryID ≤ 3 ∧ env.isCompressed = true) ∧
    ((h < 27 ∨ 42 < h) → decodeEnvelopeBytes sigBytes =
        Except.error (.invalidHeaderByte h)) := by
  subst hh
  simp only [decodeEnvelopeBytes, if_neg (show ¬sigBytes.length < 65 by omega)]
  refine ⟨?_, ?_, ?_⟩
  · rintro ⟨h1, h2⟩
    rw [if_neg (by omega)]
    refine ⟨_, rfl, ?_, ?_, ?_⟩
    · dsimp only
      omega
    · dsimp only
      omega
    · dsimp only
      simp only [decide_eq_false_iff_not]
      omega
  · rintro ⟨h1, h2⟩
    rw [if_neg (by omega)]
    refine ⟨_, rfl, ?_, ?_, ?_⟩
    · dsimp only
      omega
    · dsimp only
      omega
    · dsimp only
      simp only [decide_eq_true_eq]
      omega
  · intro h1
    rw [if_pos (by omega)]

/-- Witness for C1: a 65-byte input with header byte 27 decodes to
recovery id 0, uncompressed. -/
theorem header_byte_classification_witness :
    ∃ env, decodeEnvelopeBytes (27 :: List.replicate 64 0) = Except.ok env ∧
      env.recoveryID = (27 - 27) % 4 ∧ env.recoveryID ≤ 3 ∧ env.isCompressed = false :=
  (header_byte_classification (27 :: List.replicate 64 0) 27 (by decide) rfl).1
    ⟨by decide, by decide⟩

/-- C7: the direct verification path fails with invalidEncoding exactly
when the signature string is not valid padded standard-alphabet base64
(per the Go decoder model), and with malformedSignature exactly when the
decoded bytes number fewer than 65; hence the base64 check precedes the
length check and both precede header inspection. -/
theorem direct_error_classification (caps : Caps) (pubKey : PubKey)
    (message sig : GoStr) :
    (verifySignatureDirectly caps pubKey message sig = Except.error .invalidEncoding ↔
      decodeBase64 sig = none) ∧
    (verifySignatureDirectly caps pubKey message sig = Except.error .malformedSignature ↔
      ∃ bs, decodeBase64 sig = some bs ∧ bs.length < 65) := by
  cases hdec : decodeBase64 sig with
  | none => simp [verifySignatureDirectly, hdec]
  | some bs =>
    simp only [verifySignatureDirectly, hdec]
    by_cases hlen : bs.length < 65
    · simp [decodeEnvelopeBytes, hlen]
    · simp only [decodeEnvelopeBytes, if_neg hlen]
      by_cases hhdr : (bs.headD 0 < 27 ∨ 34 < bs.headD 0) ∧
          (bs.headD 0 < 35 ∨ 42 < bs.headD 0)
      · rw [if_pos hhdr]
        simp [hlen]
      · rw [if_neg hhdr]
        cases hp : parseDerSig (buildDER (List.take 32 bs.tail) (List.take 32 (bs.drop 33))) with
        | none => simp [hp, hlen]
        | some rs => simp [hp, hlen]

/-- C3: `VerifyWithPubKey` returns the direct path's boolean unchanged
whenever the direct path completes without error (a false result does
not trigger the fallback), and invokes the derived-address fallback,
returning its outcome, exactly when the direct path returns an error. -/
theorem verifyWithPubKey_fallback_policy (caps : Caps) (pubKey : PubKey)
    (message sig : GoStr) :
    (∀ b, verifySignatureDirectly caps pubKey message sig = Except.ok b →
      VerifyWithPubKey caps pubKey message sig = Except.ok b) ∧
    (∀ e, verifySignatureDirectly caps pubKey message sig = Except.error e →
      VerifyWithPubKey caps pubKey message sig =
        verifyWithDerivedAddress caps pubKey message sig) := by
  constructor
  · intro b hb
    simp [VerifyWithPubKey, hb]
  · intro e he
    simp [VerifyWithPubKey, he]

/-- Witness for C3: a conclusive false from the direct path is returned
as-is, and an invalid-base64 error routes to the fallback's outcome. -/
theorem verifyWithPubKey_fallback_policy_witness :
    (verifySignatureDirectly capsFalse 0 msgT sigB64H27 = Except.ok false ∧
      VerifyWithPubKey capsFalse 0 msgT sigB64H27 = Except.ok false) ∧
    (verifySignatureDirectly capsTrue 0 msgT badB64 = Except.error .invalidEncoding ∧
      VerifyWithPubKey capsTrue 0 msgT badB64 =
        verifyWithDerivedAddress capsTrue 0 msgT badB64) := by
  have h1 : verifySignatureDirectly capsFalse 0 msgT sigB64H27 = Except.ok false := by
    decide
  have h2 : verifySignatureDirectly capsTrue 0 msgT badB64 =
      Except.error .invalidEncoding := by decide
  exact ⟨⟨h1, (verifyWithPubKey_fallback_policy capsFalse 0 msgT sigB64H27).1 false h1⟩,
    ⟨h2, (verifyWithPubKey_fallback_policy capsTrue 0 msgT badB64).2 _ h2⟩⟩

/-- C4 counterexample: the exposed pubkey-path operation performs no
empty-input check: with an empty message it runs the cryptographic
pipeline and returns the oracle's boolean instead of an EmptyInput
error. -/
theorem pubkey_path_empty_message_no_emptyInput :
    VerifyWithPubKey capsTrue 0 [] sigB64H27 = Except.ok true := by decide

/-- C4 (amended): the address-based entry point
`VerifyBip137SignatureWithParams` (and hence its mainnet wrapper)
rejects an empty address, message, or signature with the corresponding
EmptyInput error, in that order, for every capability oracle — so no
external/cryptographic work is consulted; the pubkey-path and
context-based operations perform no such checks. -/
theorem withParams_empty_input_rejection (caps : Caps)
    (address message sig : GoStr) (params : ChainParams) :
    (address = [] → VerifyBip137SignatureWithParams caps address message sig params =
      Except.error .emptyAddress) ∧
    (address ≠ [] → message = [] →
      VerifyBip137SignatureWithParams caps address message sig params =
        Except.error .emptyMessage) ∧
    (address ≠ [] → message ≠ [] → sig = [] →
      VerifyBip137SignatureWithParams caps address message sig params =
        Except.error .emptySignature) := by
  refine ⟨?_, ?_, ?_⟩ <;>
    · intros
      simp [VerifyBip137SignatureWithParams, *]

/-- Witness for C4 (amended): each empty field yields its error. -/
theorem withParams_empty_input_rejection_witness :
    VerifyBip137SignatureWithParams capsTrue [] msgT sigB64H27 0 =
      Except.error .emptyAddress ∧
    VerifyBip137SignatureWithParams capsTrue [49] [] sigB64H27 0 =
      Except.error .emptyMessage ∧
    VerifyBip137SignatureWithParams capsTrue [49] msgT [] 0 =
      Except.error .emptySignature :=
  ⟨(withParams_empty_input_rejection capsTrue [] msgT sigB64H27 0).1 rfl,
   (withParams_empty_input_rejection capsTrue [49] [] sigB64H27 0).2.1
     (by decide) rfl,
   (withParams_empty_input_rejection capsTrue [49] msgT [] 0).2.2
     (by decide) (by decide) rfl⟩

/-- C8: the context-bounded operation returns the timeout error kind,
and never a boolean result, whenever the deadline fires before the
verification result is delivered (for every oracle, whose computed
result is then discarded); otherwise it passes the underlying result or
error kind through unchanged. -/
theorem context_timeout_policy (caps : Caps) (deadlineFirst : Bool)
    (msg : SignedMessage) :
    (deadlineFirst = true →
      VerifyBip137SignatureWithContext caps deadlineFirst msg = Except.error .timeout ∧
      ∀ b, VerifyBip137SignatureWithContext caps deadlineFirst msg ≠ Except.ok b) ∧
    (deadlineFirst = false →
      (∀ b, caps.plainVerify msg.address msg.message msg.signature = Except.ok b →
        VerifyBip137SignatureWithContext caps deadlineFirst msg = Except.ok b) ∧
      (∀ e, caps.plainVerify msg.address msg.message msg.signature = Except.error e →
        VerifyBip137SignatureWithContext caps deadlineFirst msg = Except.error e)) := by
  constructor
  · intro hd
    subst hd
    refine ⟨rfl, ?_⟩
    intro b
    simp [VerifyBip137SignatureWithContext]
  · intro hd
    subst hd
    constructor
    · intro b hb
      simp [VerifyBip137SignatureWithContext, hb]
    · intro e he
      simp [VerifyBip137SignatureWithContext, he]

/-- Witness for C8: with the deadline first the result is the timeout
error; without it the oracle's true result passes through. -/
theorem context_timeout_policy_witness :
    VerifyBip137SignatureWithContext capsTrue true smT = Except.error .timeout ∧
    VerifyBip137SignatureWithContext capsTrue false smT = Except.ok true :=
  ⟨((context_timeout_policy capsTrue true smT).1 rfl).1,
   ((context_timeout_policy capsTrue false smT).2 rfl).1 true rfl⟩

/-- C9: two decoded signatures of at least 65 bytes that agree on bytes
1 through 64 and whose header bytes both lie in [27,42] produce the same
direct-path verification outcome: the recovery id and compression flag
of the header byte are range-checked but never used afterwards. -/
theorem direct_header_independence (caps : Caps) (pubKey : PubKey) (message : GoStr)
    (sig1 sig2 : GoStr) (b1 b2 : List Nat)
    (h1 : decodeBase64 sig1 = some b1) (h2 : decodeBase64 sig2 = some b2)
    (l1 : 65 ≤ b1.length) (l2 : 65 ≤ b2.length)
    (hmid : (b1.drop 1).take 64 = (b2.drop 1).take 64)
    (hh1 : 27 ≤ b1.headD 0) (hh2 : b1.headD 0 ≤ 42)
    (hh3 : 27 ≤ b2.headD 0) (hh4 : b2.headD 0 ≤ 42) :
    verifySignatureDirectly caps pubKey message sig1 =
      verifySignatureDirectly caps pubKey message sig2 := by
  have hr : (b1.drop 1).take 32 = (b2.drop 1).take 32 := by
    have e1 : (b1.drop 1).take 32 = ((b1.drop 1).take 64).take 32 := by
      rw [List.take_take]
      norm_num
    have e2 : (b2.drop 1).take 32 = ((b2.drop 1).take 64).take 32 := by
      rw [List.take_take]
      norm_num
    rw [e1, e2, hmid]
  have hsx : (b1.drop 33).take 32 = (b2.drop 33).take 32 := by
    have e1 : ((b1.drop 1).take 64).drop 32 = (b1.drop 33).take 32 := by
      rw [List.drop_take, List.drop_drop]
    have e2 : ((b2.drop 1).take 64).drop 32 = (b2.drop 33).take 32 := by
      rw [List.drop_take, List.drop_drop]
    rw [← e1, ← e2, hmid]
  have hc1 : ¬((b1.headD 0 < 27 ∨ 34 < b1.headD 0) ∧
      (b1.headD 0 < 35 ∨ 42 < b1.headD 0)) := by omega
  have hc2 : ¬((b2.headD 0 < 27 ∨ 34 < b2.headD 0) ∧
      (b2.headD 0 < 35 ∨ 42 < b2.headD 0)) := by omega
  simp only [verifySignatureDirectly, h1, h2, decodeEnvelopeBytes,
    if_neg (show ¬b1.length < 65 by omega), if_neg (show ¬b2.length < 65 by omega),
    if_neg hc1, if_neg hc2]
  rw [hr, hsx]

/-- Witness for C9: the same r and s under header bytes 27 and 28 give
the same direct-path outcome. -/
theorem direct_header_independence_witness :
    decodeBase64 sigB64H28 = some sigBytes28 ∧
    verifySignatureDirectly capsTrue 0 msgT sigB64H27 =
      verifySignatureDirectly capsTrue 0 msgT sigB64H28 :=
  ⟨by decide,
   direct_header_independence capsTrue 0 msgT sigB64H27 sigB64H28 sigBytes27 sigBytes28
     (by decide) (by decide) (by decide) (by decide) (by decide) (by decide) (by decide)
     (by decide) (by decide)⟩

/-- C10: whenever the signature base64-decodes to at least one byte, the
derived-address fallback verifies against the P2PKH address encoded from
the hash160 of the compressed key serialization with mainnet parameters;
neither the header byte nor any other network parameter influences that
address. -/
theorem derivedAddress_mainnet_compressed (caps : Caps) (pubKey : PubKey)
    (message sig : GoStr) (bs : List Nat)
    (hdec : decodeBase64 sig = some bs) (hlen : 1 ≤ bs.length) :
    verifyWithDerivedAddress caps pubKey message sig =
      (match caps.encodeAddress (caps.hash160 (caps.serializeCompressed pubKey))
          mainNetParams with
        | none => Except.error .addressDerivationError
        | some addr => VerifyBip137Signature caps addr message sig) := by
  simp only [verifyWithDerivedAddress, hdec, if_neg (show ¬bs.length < 1 by omega),
    deriveAddressFromPubKey]
  cases hx : caps.encodeAddress (caps.hash160 (caps.serializeCompressed pubKey))
      mainNetParams with
  | none => simp [hx]
  | some addr => simp [hx]

/-- Witness for C10: with a concrete oracle the fallback equals
address-based verification at the derived mainnet address. -/
theorem derivedAddress_mainnet_compressed_witness :
    1 ≤ sigBytes27.length ∧
    verifyWithDerivedAddress capsTrue 0 msgT sigB64H27 =
      (match capsTrue.encodeAddress (capsTrue.hash160 (capsTrue.serializeCompressed 0))
          mainNetParams with
        | none => Except.error .addressDerivationError
        | some addr => VerifyBip137Signature capsTrue addr msgT sigB64H27) :=
  ⟨by decide,
   derivedAddress_mainnet_compressed capsTrue 0 msgT sigB64H27 sigBytes27
     (by decide) (by decide)⟩
